import Mathlib

/-!
Verification of the peer-assisted media transport of the cyberfly node web
dashboard: the fragmentation/reassembly protocol (`src/services/streaming.ts`,
class `StreamChannel`), the WebRTC signaling handler (`handleWebRTCSignal` of
the live-streaming page) and the file-chunk exchange
(`src/services/video-streaming.ts`, classes `VideoFileBroadcaster` and
`VideoFileViewer`).

The TypeScript code is shallowly embedded: byte buffers (`Uint8Array`) become
`List Nat`, JavaScript `Map`s become association lists whose operations mirror
`Map.get` / `Map.set` / `Map.delete` (insertion order preserved, keys unique),
JavaScript `Set`s become duplicate-free lists in insertion order, and the
side-effecting calls (`channel.sender.broadcast_chunk`, `broadcastSignal`,
observer callbacks, media-element operations) are collected as explicit lists
of emitted actions.  `Math.floor` on non-negative numbers is `Nat` division.
-/

/-! ## JavaScript `Map` model (association list, insertion order, unique keys) -/

def mapGet {κ α : Type} [DecidableEq κ] (m : List (κ × α)) (k : κ) : Option α :=
  match m with
  | [] => none
  | (k₁, v) :: rest => if k₁ = k then some v else mapGet rest k

def mapSet {κ α : Type} [DecidableEq κ] (m : List (κ × α)) (k : κ) (v : α) :
    List (κ × α) :=
  match m with
  | [] => [(k, v)]
  | (k₁, v₁) :: rest =>
    if k₁ = k then (k, v) :: rest else (k₁, v₁) :: mapSet rest k v

def mapDelete {κ α : Type} [DecidableEq κ] (m : List (κ × α)) (k : κ) :
    List (κ × α) :=
  match m with
  | [] => []
  | (k₁, v₁) :: rest => if k₁ = k then rest else (k₁, v₁) :: mapDelete rest k

/-! ## Fragmentation (`StreamChannel.broadcastChunk`)

`MAX_CHUNK_SIZE = 55 * 1024` from `streaming.ts`.  `broadcastChunk` is
embedded as the list of `(sequenceTag, bytes)` pairs handed to
`channel.sender.broadcast_chunk`, in send order. -/

def MAX_CHUNK_SIZE : Nat := 55 * 1024

def broadcastChunk (data : List Nat) (sequence : Nat) : List (Nat × List Nat) :=
  if data.length ≤ MAX_CHUNK_SIZE then
    [(sequence * 10000, data)]
  else
    let totalParts := (data.length + MAX_CHUNK_SIZE - 1) / MAX_CHUNK_SIZE
    (List.range totalParts).map fun i =>
      (sequence * 10000 + i + totalParts * 100,
       (data.drop (i * MAX_CHUNK_SIZE)).take MAX_CHUNK_SIZE)

/-! ## Reassembly (`StreamChannel.handleChunkedMedia`) -/

/-- One entry of `StreamChannel.pendingChunks`:
`{ chunks: Map<number, Uint8Array>, totalParts, from, timestamp }`. -/
structure PendingFrame where
  chunks : List (Nat × List Nat)
  totalParts : Nat
  fromId : String
  timestamp : Nat
  deriving Repr, DecidableEq

/-- A `mediaChunk` stream event as consumed by `handleChunkedMedia`.
`timestamp` is the event's own timestamp field (`0` models the JavaScript
falsy absent case), `arrival` models the value of `Date.now()` while the
event is being processed. -/
structure MediaEvent where
  fromId : String
  data : List Nat
  sequence : Nat
  timestamp : Nat
  arrival : Nat
  deriving Repr, DecidableEq

/-- The `for (let i = 0; i < pending.totalParts; i++)` collection loop:
starting at index `i`, fetch `n` consecutive parts, failing (returning
`none`, the code path that logs "Missing part" and drops the frame) if any
is absent. -/
def collectParts (chunks : List (Nat × List Nat)) : Nat → Nat → Option (List (List Nat))
  | _, 0 => some []
  | i, n + 1 =>
    match mapGet chunks i with
    | none => none
    | some c =>
      match collectParts chunks (i + 1) n with
      | none => none
      | some rest => some (c :: rest)

/-- `StreamChannel.handleChunkedMedia`, embedded as a state transformer on the
`pendingChunks` table.  Returns the new table and the reassembled payload
(`some` exactly when the TypeScript method returns a non-null buffer). -/
def handleChunkedMedia (pendingChunks : List (Nat × PendingFrame))
    (event : MediaEvent) : List (Nat × PendingFrame) × Option (List Nat) :=
  let sequence := event.sequence
  let frameNumber := sequence / 10000
  let partInfo := sequence % 10000
  let partNumber := partInfo % 100
  let totalParts := partInfo / 100
  if totalParts ≤ 1 ∧ partNumber = 0 then
    (pendingChunks, some event.data)
  else
    let pending0 : PendingFrame :=
      match mapGet pendingChunks frameNumber with
      | some p => p
      | none =>
        { chunks := []
          totalParts := if totalParts = 0 then 1 else totalParts
          fromId := event.fromId
          timestamp := if event.timestamp = 0 then event.arrival else event.timestamp }
    let pending1 := { pending0 with chunks := mapSet pending0.chunks partNumber event.data }
    let pending2 := if totalParts > 0 then { pending1 with totalParts := totalParts } else pending1
    let table1 := mapSet pendingChunks frameNumber pending2
    if pending2.chunks.length ≥ pending2.totalParts then
      match collectParts pending2.chunks 0 pending2.totalParts with
      | none => (mapDelete table1 frameNumber, none)
      | some parts =>
        let combined := parts.flatten
        let table2 := mapDelete table1 frameNumber
        let table3 := table2.filter fun fp => ¬ event.arrival - fp.2.timestamp > 5000
        (table3, some combined)
    else
      (table1, none)

/-- Feed a list of inbound media-chunk events through the reassembler,
collecting the dispatched (reassembled) payloads in order. -/
def runChunks (pendingChunks : List (Nat × PendingFrame)) :
    List MediaEvent → List (Nat × PendingFrame) × List (List Nat)
  | [] => (pendingChunks, [])
  | e :: rest =>
    let r := handleChunkedMedia pendingChunks e
    let r₂ := runChunks r.1 rest
    (r₂.1, r.2.toList ++ r₂.2)

/-! ## Tag decoding, as performed at the top of `handleChunkedMedia` -/

/-- The receiver's decoding of a sequence tag into
`(frameNumber, partNumber, totalParts)`. -/
def decodeTag (sequence : Nat) : Nat × Nat × Nat :=
  (sequence / 10000, sequence % 10000 % 100, sequence % 10000 / 100)

/-! ## WebRTC signaling (`handleWebRTCSignal` of the live-streaming page) -/

inductive WSignalType
  | requestOffer
  | offer
  | answer
  | iceCandidate
  deriving Repr, DecidableEq

/-- A `WebRTCSignal` message `{type, from, to?, sdp?, candidate?}`.
ICE candidate descriptors are opaque to the handler and numbered by `Nat`. -/
structure WSignal where
  type : WSignalType
  fromId : String
  toId : Option String := none
  sdp : Option String := none
  candidate : Option Nat := none
  deriving Repr, DecidableEq

/-- A per-peer `RTCPeerConnection` handle, reduced to what the signaling
handler observes and mutates: whether a remote resp. local description has
been applied, and the ICE candidates added via `addIceCandidate`, in call
order. -/
structure PeerConn where
  remoteDescription : Bool
  localDescription : Bool
  applied : List Nat
  deriving Repr, DecidableEq

/-- The two mutable refs `handleWebRTCSignal` operates on:
`peerConnectionsRef` (`Map<string, PeerConnectionInfo>`) and
`pendingIceCandidatesRef` (`Map<string, RTCIceCandidateInit[]>`). -/
structure RTCState where
  peerConnections : List (String × PeerConn)
  pendingIceCandidates : List (String × List Nat)
  deriving Repr, DecidableEq

/-- Immutable context of one `handleWebRTCSignal` call: the local endpoint id
(`myEndpointIdRef`), whether `streamChannelRef.current` is non-null, the
local media source (`none` models a null `mediaStreamRef.current`; each
track's `readyState === 'live'` is a `Bool`), and the SDP strings the
negotiation engine produces for `createOffer` / `createAnswer`. -/
structure RTCEnv where
  myEndpointId : String
  hasChannel : Bool
  mediaStream : Option (List Bool)
  offerSdp : String
  answerSdp : String

/-- `handleWebRTCSignal`, embedded as a state transformer returning the new
ref state together with the signals sent via `channel.broadcastSignal`
during the call (asynchronous `onicecandidate` sends belong to the external
negotiation engine and are not part of the call). -/
def handleWebRTCSignal (env : RTCEnv) (s : RTCState) (signal : WSignal) :
    RTCState × List WSignal :=
  if signal.fromId = env.myEndpointId then (s, [])
  else if (match signal.toId with
           | some t => !(t == "") && !(t == env.myEndpointId)
           | none => false) then (s, [])
  else if ¬ env.hasChannel then (s, [])
  else
    match signal.type with
    | .requestOffer =>
      match env.mediaStream with
      | none => (s, [])
      | some tracks =>
        if ((tracks.filter fun t => t).length = 0) then (s, [])
        else
          let pc : PeerConn := ⟨false, true, []⟩
          ({ s with peerConnections := mapSet s.peerConnections signal.fromId pc },
           [⟨.offer, env.myEndpointId, some signal.fromId, some env.offerSdp, none⟩])
    | .offer =>
      let pending := (mapGet s.pendingIceCandidates signal.fromId).getD []
      let pc : PeerConn := ⟨true, true, pending⟩
      ({ peerConnections := mapSet s.peerConnections signal.fromId pc
         pendingIceCandidates := mapDelete s.pendingIceCandidates signal.fromId },
       [⟨.answer, env.myEndpointId, some signal.fromId, some env.answerSdp, none⟩])
    | .answer =>
      match mapGet s.peerConnections signal.fromId with
      | none => (s, [])
      | some pc =>
        let pending := (mapGet s.pendingIceCandidates signal.fromId).getD []
        let pc2 := { pc with remoteDescription := true, applied := pc.applied ++ pending }
        ({ peerConnections := mapSet s.peerConnections signal.fromId pc2
           pendingIceCandidates := mapDelete s.pendingIceCandidates signal.fromId },
         [])
    | .iceCandidate =>
      match signal.candidate with
      | none => (s, [])
      | some c =>
        match mapGet s.peerConnections signal.fromId with
        | some pc =>
          if pc.remoteDescription then
            let pc2 := { pc with applied := pc.applied ++ [c] }
            ({ s with peerConnections := mapSet s.peerConnections signal.fromId pc2 }, [])
          else
            let q := ((mapGet s.pendingIceCandidates signal.fromId).getD []) ++ [c]
            ({ s with pendingIceCandidates := mapSet s.pendingIceCandidates signal.fromId q },
             [])
        | none =>
          let q := ((mapGet s.pendingIceCandidates signal.fromId).getD []) ++ [c]
          ({ s with pendingIceCandidates := mapSet s.pendingIceCandidates signal.fromId q },
           [])

/-! ## File-chunk exchange (`video-streaming.ts`) -/

inductive VMType
  | videoMetadata
  | videoChunk
  | videoRequestChunk
  | videoHaveChunks
  | videoRequestMetadata
  deriving Repr, DecidableEq

/-- A `VideoStreamMessage`; absent optional fields are `none`. -/
structure VideoMessage where
  type : VMType
  fromId : String
  fileName : Option String := none
  fileSize : Option Nat := none
  mimeType : Option String := none
  totalChunks : Option Nat := none
  duration : Option Nat := none
  chunkIndex : Option Int := none
  chunkData : Option (List Nat) := none
  availableChunks : Option (List Int) := none
  deriving Repr, DecidableEq

structure VideoMetadata where
  fileName : String
  fileSize : Nat
  mimeType : String
  totalChunks : Nat
  duration : Option Nat
  deriving Repr, DecidableEq

/-- `VideoFileBroadcaster` state relevant to request handling: the prepared
chunk table, the (immutable) metadata and the local endpoint id. -/
structure Broadcaster where
  chunks : List (List Nat)
  metadata : VideoMetadata
  myEndpointId : String
  deriving Repr, DecidableEq

/-- Observable effects of a broadcaster call: the `onPeerRequest` observer
callback, a `channel.broadcastSignal` send, and a `channel.broadcastChunk`
send (message plus frame-number argument). -/
inductive BAction
  | peerRequest (peerId : String) (chunkIndex : Int)
  | sendSignal (msg : VideoMessage)
  | sendChunk (msg : VideoMessage) (sequence : Int)
  deriving Repr, DecidableEq

/-- The `video-metadata` message built by `broadcastMetadata`. -/
def broadcastMetadataMsg (b : Broadcaster) : VideoMessage :=
  { type := .videoMetadata
    fromId := b.myEndpointId
    fileName := some b.metadata.fileName
    fileSize := some b.metadata.fileSize
    mimeType := some b.metadata.mimeType
    totalChunks := some b.metadata.totalChunks
    duration := b.metadata.duration }

/-- `VideoFileBroadcaster.broadcastChunk(index)`: no-op when `index` is out of
range, otherwise one `channel.broadcastChunk(encodeVideoMessage(msg), index)`
send carrying the chunk at `index`. -/
def broadcastChunkB (b : Broadcaster) (index : Int) : List BAction :=
  if index < 0 ∨ (b.chunks.length : Int) ≤ index then []
  else
    [.sendChunk
      { type := .videoChunk
        fromId := b.myEndpointId
        chunkIndex := some index
        chunkData := some (b.chunks.getD index.toNat []) } index]

/-- `VideoFileBroadcaster.handleChunkRequest(peerId, chunkIndex)`. -/
def handleChunkRequestB (b : Broadcaster) (peerId : String) (chunkIndex : Int) :
    List BAction :=
  .peerRequest peerId chunkIndex ::
    (if 0 ≤ chunkIndex ∧ chunkIndex < (b.chunks.length : Int) then
      broadcastChunkB b chunkIndex
     else [])

/-- `VideoFileBroadcaster.handleVideoMessage` (the broadcaster mutates no
state; its observable behaviour is the emitted action list). -/
def handleVideoMessageB (b : Broadcaster) (msg : VideoMessage) : List BAction :=
  if msg.fromId = b.myEndpointId then []
  else
    match msg.type with
    | .videoRequestMetadata => [.sendSignal (broadcastMetadataMsg b)]
    | .videoRequestChunk =>
      match msg.chunkIndex with
      | some idx => handleChunkRequestB b msg.fromId idx
      | none => []
    | _ => []

/-! ### `VideoFileViewer` -/

/-- JavaScript `Set` model: duplicate-free list in insertion order. -/
def setHas (s : List Int) (i : Int) : Bool :=
  s.contains i

def setAdd (s : List Int) (i : Int) : List Int :=
  if s.contains i then s else s ++ [i]

/-- `VideoFileViewer` state.  `videoElement` models a non-null
`videoElement`; `videoSrcSet` models a non-empty `videoElement.src`.
Media-source/append-queue fields unused by the embedded methods are
omitted. -/
structure Viewer where
  myEndpointId : String
  metadata : Option VideoMetadata
  chunks : List (Int × List Nat)
  receivedChunks : List Int
  pendingRequests : List Int
  peerChunks : List (String × List Int)
  videoElement : Bool
  videoSrcSet : Bool
  lastAppendedIndex : Int
  deriving Repr, DecidableEq

/-- Observable effects of a viewer call: the `onProgress` / `onMetadata` /
`onReady` callbacks, the start of the chunk-request loop, signal and chunk
sends, and a blob assembly+playback attempt. -/
inductive VAction
  | progressCb (received total : Nat)
  | metadataCb (md : VideoMetadata)
  | readyCb
  | startRequestingChunks
  | sendSignal (msg : VideoMessage)
  | sendChunk (msg : VideoMessage) (sequence : Int)
  | assemblePlay (chunks : List (List Nat))
  deriving Repr, DecidableEq

/-- JavaScript `String.prototype.includes`: `pat` occurs in `s`. -/
def jsIncludes (s pat : String) : Bool :=
  (s.splitOn pat).length != 1

/-- The sequential-count loop of `tryProgressivePlay`: starting at index `i`
with `n` loop iterations left, count contiguous chunks and stop at the first
missing one. -/
def seqCountFrom (chunks : List (Int × List Nat)) : Nat → Nat → Nat
  | _, 0 => 0
  | i, n + 1 =>
    match mapGet chunks (i : Int) with
    | some _ => 1 + seqCountFrom chunks (i + 1) n
    | none => 0

/-- The `orderedChunks` loop of `assembleAndPlay`: collect chunks `0..count-1`
in order, stopping at the first missing index. -/
def collectSeq (chunks : List (Int × List Nat)) : Nat → Nat → List (List Nat)
  | _, 0 => []
  | i, n + 1 =>
    match mapGet chunks (i : Int) with
    | some c => c :: collectSeq chunks (i + 1) n
    | none => []

/-- `VideoFileViewer.assembleAndPlay(chunkCount?)`; the blob creation, URL
swap and `play()` call are abstracted into the `assemblePlay` action and the
`videoSrcSet` flag. -/
def assembleAndPlay (v : Viewer) (chunkCount : Option Nat) : Viewer × List VAction :=
  match v.metadata with
  | none => (v, [])
  | some md =>
    if ¬ v.videoElement then (v, [])
    else
      let count :=
        match chunkCount with
        | some n => if n = 0 then md.totalChunks else n
        | none => md.totalChunks
      let orderedChunks := collectSeq v.chunks 0 count
      if orderedChunks.length = 0 then (v, [])
      else ({ v with videoSrcSet := true }, [.assemblePlay orderedChunks])

/-- `VideoFileViewer.tryProgressivePlay`. -/
def tryProgressivePlay (v : Viewer) : Viewer × List VAction :=
  match v.metadata with
  | none => (v, [])
  | some md =>
    if ¬ v.videoElement then (v, [])
    else
      let sequentialCount := seqCountFrom v.chunks 0 md.totalChunks
      let v₁ := { v with lastAppendedIndex := (sequentialCount : Int) - 1 }
      let isWebM := jsIncludes md.mimeType "webm"
      let minPercentToPlay : ℚ := if isWebM then 10 else 100
      let hasAllChunks := v.receivedChunks.length ≥ md.totalChunks
      let sequentialPercent : ℚ := ((sequentialCount : ℚ) / (md.totalChunks : ℚ)) * 100
      if hasAllChunks ∧ sequentialCount ≥ md.totalChunks then
        assembleAndPlay v₁ (some sequentialCount)
      else if isWebM ∧ sequentialPercent ≥ minPercentToPlay ∧ ¬ v₁.videoSrcSet then
        assembleAndPlay v₁ (some sequentialCount)
      else (v₁, [])

/-- `VideoFileViewer.announceChunks` (throttled to every 10th chunk). -/
def announceChunks (v : Viewer) : List VAction :=
  if v.receivedChunks.length % 10 ≠ 0 then []
  else
    [.sendSignal
      { type := .videoHaveChunks
        fromId := v.myEndpointId
        availableChunks := some v.receivedChunks }]

/-- `VideoFileViewer.handleChunk`. -/
def handleChunk (v : Viewer) (msg : VideoMessage) : Viewer × List VAction :=
  match msg.chunkIndex, msg.chunkData with
  | some index, some cdata =>
    if setHas v.receivedChunks index then (v, [])
    else
      let v₁ := { v with
        chunks := mapSet v.chunks index cdata
        receivedChunks := setAdd v.receivedChunks index
        pendingRequests := v.pendingRequests.erase index }
      match v₁.metadata with
      | some md =>
        let r := tryProgressivePlay v₁
        (r.1, .progressCb v₁.receivedChunks.length md.totalChunks :: r.2 ++ announceChunks r.1)
      | none => (v₁, announceChunks v₁)
  | _, _ => (v, [])

/-- `VideoFileViewer.handleMetadata` followed by `initMediaSource`. -/
def handleMetadata (v : Viewer) (msg : VideoMessage) : Viewer × List VAction :=
  match v.metadata with
  | some _ => (v, [])
  | none =>
    let md : VideoMetadata :=
      { fileName :=
          match msg.fileName with
          | some s => if s = "" then "video" else s
          | none => "video"
        fileSize := msg.fileSize.getD 0
        mimeType :=
          match msg.mimeType with
          | some s => if s = "" then "video/mp4" else s
          | none => "video/mp4"
        totalChunks := msg.totalChunks.getD 0
        duration := msg.duration }
    let v₁ := { v with metadata := some md }
    if v₁.videoElement then
      (v₁, [.metadataCb md, .readyCb, .startRequestingChunks])
    else (v₁, [.metadataCb md])

/-- `VideoFileViewer.handleChunkRequest` (peer-assisted relay with the
`+100000` frame-number offset). -/
def handleChunkRequestV (v : Viewer) (msg : VideoMessage) : List VAction :=
  match msg.chunkIndex with
  | none => []
  | some index =>
    match mapGet v.chunks index with
    | some chunk =>
      [.sendChunk
        { type := .videoChunk
          fromId := v.myEndpointId
          chunkIndex := some index
          chunkData := some chunk } (index + 100000)]
    | none => []

/-- `VideoFileViewer.handlePeerChunks`. -/
def handlePeerChunks (v : Viewer) (msg : VideoMessage) : Viewer :=
  match msg.availableChunks with
  | none => v
  | some avail =>
    let peerSet := (mapGet v.peerChunks msg.fromId).getD []
    let merged := avail.foldl (fun s i => setAdd s i) peerSet
    { v with peerChunks := mapSet v.peerChunks msg.fromId merged }

/-- `VideoFileViewer.handleVideoMessage`. -/
def handleVideoMessageV (v : Viewer) (msg : VideoMessage) : Viewer × List VAction :=
  if msg.fromId = v.myEndpointId then (v, [])
  else
    match msg.type with
    | .videoMetadata => handleMetadata v msg
    | .videoChunk => handleChunk v msg
    | .videoRequestChunk => (v, handleChunkRequestV v msg)
    | .videoHaveChunks => (handlePeerChunks v msg, [])
    | .videoRequestMetadata => (v, [])

/-- `VideoFileViewer.getProgress`, with the JavaScript float percentage
modelled exactly in `ℚ`. -/
def getProgress (v : Viewer) : Nat × Nat × ℚ :=
  let total :=
    match v.metadata with
    | some md => md.totalChunks
    | none => 0
  let received := v.receivedChunks.length
  (received, total,
    if total > 0 then ((received : ℚ) / (total : ℚ)) * 100 else 0)

theorem decodeTag_pack (frameNumber partNumber totalParts : Nat)
    (hp : partNumber < 100) (ht : totalParts < 100) :
    decodeTag (frameNumber * 10000 + partNumber + totalParts * 100) =
      (frameNumber, partNumber, totalParts) := by
  unfold decodeTag
  refine Prod.ext ?_ (Prod.ext ?_ ?_) <;> simp only <;> omega

/-- C2 — For all `0 ≤ partNumber < 100`, `0 ≤ totalParts < 100` and
`frameNumber ≥ 0`, decoding the packed tag
(`frameNumber = ⌊tag/10000⌋`, `partNumber = (tag mod 10000) mod 100`,
`totalParts = ⌊(tag mod 10000)/100⌋`) recovers exactly the triple packed by
`tag = frameNumber*10000 + partNumber + totalParts*100` (multi-part) or
`tag = frameNumber*10000` (single-part, recovered as part 0 of 0). -/
theorem C2_tag_packing_invertible (frameNumber partNumber totalParts : Nat)
    (hp : partNumber < 100) (ht : totalParts < 100) :
    decodeTag (frameNumber * 10000 + partNumber + totalParts * 100) =
      (frameNumber, partNumber, totalParts) ∧
    decodeTag (frameNumber * 10000) = (frameNumber, 0, 0) := by
  refine ⟨decodeTag_pack frameNumber partNumber totalParts hp ht, ?_⟩
  have h := decodeTag_pack frameNumber 0 0 (by omega) (by omega)
  simpa using h

theorem C2_tag_packing_invertible_witness :
    decodeTag (7 * 10000 + 2 + 3 * 100) = (7, 2, 3) ∧
    decodeTag (7 * 10000) = (7, 0, 0) :=
  C2_tag_packing_invertible 7 2 3 (by decide) (by decide)

/-- C3 — The claim states that `broadcastChunk` rejects a payload needing
more than 99 sub-chunks before any transmission.  The code has no such guard:
for the 5 575 681-byte payload below (100 sub-chunks of 55 KiB), it hands all
100 sub-chunks to the channel send operation, and the very first transmitted
tag `10000` (`0*10000 + 0 + 100*100`) already decodes to the wrong triple
(frame 1, part 0, single-chunk), corrupting the packing format that the
receiver comment documents as `partNumber` 0–99. -/
theorem C3_overlong_frame_is_transmitted :
    (broadcastChunk (List.replicate 5575681 0) 0).length = 100 ∧
    ((broadcastChunk (List.replicate 5575681 0) 0).map Prod.fst =
      (List.range 100).map fun i => 10000 + i) ∧
    decodeTag 10000 = (1, 0, 0) := by
  have hcond : ¬ (List.replicate 5575681 (0 : Nat)).length ≤ MAX_CHUNK_SIZE := by
    rw [List.length_replicate]
    norm_num [MAX_CHUNK_SIZE]
  have hT : ((List.replicate 5575681 (0 : Nat)).length + MAX_CHUNK_SIZE - 1) /
      MAX_CHUNK_SIZE = 100 := by
    rw [List.length_replicate]
    norm_num [MAX_CHUNK_SIZE]
  refine ⟨?_, ?_, by decide⟩
  · rw [broadcastChunk, if_neg hcond, hT, List.length_map, List.length_range]
  · rw [broadcastChunk, if_neg hcond, hT, List.map_map]
    refine List.map_congr_left fun i _ => ?_
    simp only [Function.comp]
    omega

/-- C4 counterexample — A 2-part frame whose second part arrives 19
seconds after the pending frame's creation timestamp (1000 → 20000, far past
the 5-second window) is nevertheless reassembled and dispatched, because the
staleness sweep only runs inside the successful-reassembly branch of some
frame.  The claim says such a frame is dropped and never dispatched. -/
theorem C4_counterexample :
    (runChunks []
      [⟨"peer", [1], 200, 1000, 1000⟩, ⟨"peer", [2], 201, 20000, 20000⟩]).2 =
      [[1, 2]] ∧ (20000 : Nat) - 1000 > 5000 := by
  constructor
  · decide
  · decide

/-- C4 (amended) — Staleness is enforced only by the sweep that runs when
a multi-part frame completes reassembly: whenever `handleChunkedMedia`
dispatches a reassembled multi-part payload at arrival time `now`, every
pending frame remaining in the table afterwards is at most 5 seconds old (any
older one was dropped without dispatch by that sweep).  A stale frame whose
parts all arrive before such a sweep is still dispatched (see the
counterexample). -/
theorem C4_stale_frames_swept_on_dispatch (pendingChunks : List (Nat × PendingFrame))
    (e : MediaEvent) (s' : List (Nat × PendingFrame)) (out : List Nat)
    (hmulti : 2 ≤ e.sequence % 10000 / 100)
    (h : handleChunkedMedia pendingChunks e = (s', some out)) :
    ∀ fp ∈ s', e.arrival - fp.2.timestamp ≤ 5000 := by
  intro fp hfp
  have h1 : ¬ (e.sequence % 10000 / 100 ≤ 1 ∧ e.sequence % 10000 % 100 = 0) := by
    omega
  have h2 : e.sequence % 10000 / 100 > 0 := by omega
  have h3 : ¬ e.sequence % 10000 / 100 = 0 := by omega
  simp only [handleChunkedMedia, if_neg h1, if_pos h2, if_neg h3] at h
  repeat' split at h
  all_goals injection h with hfst hsnd
  all_goals first
    | exact Option.noConfusion hsnd
    | (subst hfst
       have hp := (List.mem_filter.mp hfp).2
       simp only [decide_eq_true_eq] at hp
       omega)

theorem C4_stale_frames_swept_on_dispatch_witness :
    2 ≤ (201 : Nat) % 10000 / 100 ∧
    ∀ fp ∈ (handleChunkedMedia [(0, ⟨[(0, [1])], 2, "peer", 1000⟩)]
        ⟨"peer", [2], 201, 20000, 20000⟩).1,
      (20000 : Nat) - fp.2.timestamp ≤ 5000 := by
  refine ⟨by decide, ?_⟩
  have h : handleChunkedMedia [(0, ⟨[(0, [1])], 2, "peer", 1000⟩)]
      ⟨"peer", [2], 201, 20000, 20000⟩ =
      ((handleChunkedMedia [(0, ⟨[(0, [1])], 2, "peer", 1000⟩)]
        ⟨"peer", [2], 201, 20000, 20000⟩).1, some [1, 2]) := by decide
  exact C4_stale_frames_swept_on_dispatch _ _ _ _ (by decide) h

/-- C5 counterexample — Delivering the complete part set of a 2-part frame
twice in sequence produces two dispatches of the reassembled payload, not at
most one: after the first reassembly removes the pending frame, the second
delivery re-creates it and reassembles again. -/
theorem C5_counterexample :
    (runChunks []
      [⟨"p", [1], 200, 0, 0⟩, ⟨"p", [2], 201, 0, 0⟩,
       ⟨"p", [1], 200, 0, 0⟩, ⟨"p", [2], 201, 0, 0⟩]).2 = [[1, 2], [1, 2]] := by
  decide

/-! ## Round-trip machinery for C1/C5 -/

theorem mapGet_assoc (g : Nat → List Nat) (done : List Nat) (j : Nat) :
    mapGet (done.map fun i => (i, g i)) j =
      if j ∈ done then some (g j) else none := by
  induction done with
  | nil => simp [mapGet]
  | cons d rest ih =>
    simp only [List.map_cons, mapGet, ih, List.mem_cons]
    by_cases hd : d = j
    · subst hd
      simp
    · have hd' : ¬ j = d := fun h => hd h.symm
      simp [hd, hd']

theorem mapSet_assoc_append (g : Nat → List Nat) (done : List Nat) (i : Nat)
    (v : List Nat) (h : i ∉ done) :
    mapSet (done.map fun j => (j, g j)) i v =
      done.map (fun j => (j, g j)) ++ [(i, v)] := by
  induction done with
  | nil => rfl
  | cons d rest ih =>
    have hd : ¬ d = i := fun hdi => h (hdi ▸ List.mem_cons_self d rest)
    simp only [List.map_cons, mapSet, if_neg hd, List.cons_append]
    rw [ih fun hm => h (List.mem_cons_of_mem d hm)]

theorem mapSet_length_of_get_none {κ α : Type} [DecidableEq κ]
    (m : List (κ × α)) (k : κ) (v : α) (h : mapGet m k = none) :
    (mapSet m k v).length = m.length + 1 := by
  induction m with
  | nil => rfl
  | cons p rest ih =>
    obtain ⟨k₁, v₁⟩ := p
    by_cases hk : k₁ = k
    · simp [mapGet, hk] at h
    · simp only [mapGet, if_neg hk] at h
      simp [mapSet, if_neg hk, ih h]

theorem collectParts_eq (m : List (Nat × List Nat)) (g : Nat → List Nat) :
    ∀ (n i : Nat), (∀ j, j < n → mapGet m (i + j) = some (g (i + j))) →
      collectParts m i n = some ((List.range' i n).map g)
  | 0, i, _ => rfl
  | n + 1, i, h => by
    have h0 : mapGet m i = some (g i) := by simpa using h 0 (Nat.succ_pos n)
    have hrec := collectParts_eq m g n (i + 1) fun j hj => by
      have hx := h (j + 1) (by omega)
      have he : i + (j + 1) = i + 1 + j := by omega
      rw [he] at hx
      exact hx
    simp [collectParts, h0, hrec, List.range'_succ]

theorem tag_div10000 (f i T : Nat) (hi : i < 100) (hT : T < 100) :
    (f * 10000 + i + T * 100) / 10000 = f := by omega

theorem tag_part (f i T : Nat) (hi : i < 100) (hT : T < 100) :
    (f * 10000 + i + T * 100) % 10000 % 100 = i := by omega

theorem tag_total (f i T : Nat) (hi : i < 100) (hT : T < 100) :
    (f * 10000 + i + T * 100) % 10000 / 100 = T := by omega

theorem exists_preimage_perm {α β : Type} [DecidableEq α] (gf : α → β) :
    ∀ (l : List β) (m : List α), l.Perm (m.map gf) →
      ∃ m₂ : List α, m₂.Perm m ∧ l = m₂.map gf
  | [], m, h => by
    have hm : m.map gf = [] := h.symm.eq_nil
    have hm₂ : m = [] := List.map_eq_nil_iff.mp hm
    exact ⟨[], by simp [hm₂]⟩
  | b :: l, m, h => by
    have hb : b ∈ m.map gf := h.mem_iff.mp (List.mem_cons_self b l)
    obtain ⟨a, ha, rfl⟩ := List.mem_map.mp hb
    have hm : m.Perm (a :: m.erase a) := List.perm_cons_erase ha
    have h₂ : (gf a :: l).Perm (gf a :: (m.erase a).map gf) := by
      refine h.trans ?_
      simpa using hm.map gf
    have h₃ : l.Perm ((m.erase a).map gf) := h₂.cons_inv
    obtain ⟨m₂, hm₂, rfl⟩ := exists_preimage_perm gf l (m.erase a) h₃
    exact ⟨a :: m₂, (hm₂.cons a).trans hm.symm, rfl⟩

theorem chunks_flatten : ∀ (fuel : Nat) (d : List Nat), d.length ≤ fuel →
    0 < d.length →
    ((List.range ((d.length + MAX_CHUNK_SIZE - 1) / MAX_CHUNK_SIZE)).map
      fun i => (d.drop (i * MAX_CHUNK_SIZE)).take MAX_CHUNK_SIZE).flatten = d
  | 0, d, hf, hp => absurd (Nat.lt_of_lt_of_le hp hf) (by omega)
  | fuel + 1, d, hf, hp => by
    have hM : MAX_CHUNK_SIZE = 56320 := rfl
    by_cases hsmall : d.length ≤ MAX_CHUNK_SIZE
    · have hT : (d.length + MAX_CHUNK_SIZE - 1) / MAX_CHUNK_SIZE = 1 := by
        rw [hM] at hsmall ⊢
        omega
      rw [hT, show List.range 1 = [0] from rfl]
      simp [List.take_of_length_le hsmall]
    · push_neg at hsmall
      have hdl : (d.drop MAX_CHUNK_SIZE).length = d.length - MAX_CHUNK_SIZE := by
        simp
      have hT : (d.length + MAX_CHUNK_SIZE - 1) / MAX_CHUNK_SIZE =
          ((d.drop MAX_CHUNK_SIZE).length + MAX_CHUNK_SIZE - 1) / MAX_CHUNK_SIZE + 1 := by
        rw [hdl, hM]
        rw [hM] at hsmall
        omega
      rw [hT, List.range_succ_eq_map, List.map_cons, List.map_map, List.flatten_cons]
      have htail : ∀ i ∈ List.range
          (((d.drop MAX_CHUNK_SIZE).length + MAX_CHUNK_SIZE - 1) / MAX_CHUNK_SIZE),
          ((fun i => (d.drop (i * MAX_CHUNK_SIZE)).take MAX_CHUNK_SIZE) ∘ Nat.succ) i =
            (((d.drop MAX_CHUNK_SIZE).drop (i * MAX_CHUNK_SIZE)).take MAX_CHUNK_SIZE) := by
        intro i _
        simp only [Function.comp]
        have hidx : Nat.succ i * MAX_CHUNK_SIZE = MAX_CHUNK_SIZE + i * MAX_CHUNK_SIZE := by
          rw [Nat.succ_mul]
          exact Nat.add_comm _ _
        rw [hidx, ← List.drop_drop]
      rw [List.map_congr_left htail]
      rw [chunks_flatten fuel (d.drop MAX_CHUNK_SIZE)
        (by rw [hdl]; rw [hM] at hsmall ⊢; omega)
        (by rw [hdl]; rw [hM] at hsmall ⊢; omega)]
      simp [List.take_append_drop]

theorem handleChunkedMedia_single (e : MediaEvent)
    (hcond : e.sequence % 10000 / 100 ≤ 1 ∧ e.sequence % 10000 % 100 = 0)
    (pcs : List (Nat × PendingFrame)) :
    handleChunkedMedia pcs e = (pcs, some e.data) := by
  simp only [handleChunkedMedia, if_pos hcond]

theorem handleChunkedMedia_create (e : MediaEvent) (f i T : Nat)
    (hseq : e.sequence = f * 10000 + i + T * 100)
    (hi : i < 100) (hT2 : 2 ≤ T) (hT : T < 100) :
    handleChunkedMedia [] e =
      ([(f, ⟨[(i, e.data)], T, e.fromId,
          if e.timestamp = 0 then e.arrival else e.timestamp⟩)], none) := by
  have hc1 : ¬ (T ≤ 1 ∧ i = 0) := by omega
  have hc2 : ¬ T = 0 := by omega
  have hc3 : T > 0 := by omega
  have hc4 : ¬ (1 ≥ T) := by omega
  simp only [handleChunkedMedia, hseq, tag_div10000 f i T hi hT, tag_part f i T hi hT,
    tag_total f i T hi hT, if_neg hc1, if_neg hc2, if_pos hc3]
  simp [mapGet, mapSet, hc4]

theorem handleChunkedMedia_acc (e : MediaEvent) (f i T : Nat) (P : PendingFrame)
    (hseq : e.sequence = f * 10000 + i + T * 100)
    (hi : i < 100) (hT2 : 2 ≤ T) (hT : T < 100)
    (hget : mapGet P.chunks i = none)
    (hlen : P.chunks.length + 1 < T) :
    handleChunkedMedia [(f, P)] e =
      ([(f, ⟨mapSet P.chunks i e.data, T, P.fromId, P.timestamp⟩)], none) := by
  have hc1 : ¬ (T ≤ 1 ∧ i = 0) := by omega
  have hc3 : T > 0 := by omega
  have hsize : ¬ ((mapSet P.chunks i e.data).length ≥ T) := by
    rw [mapSet_length_of_get_none P.chunks i e.data hget]
    omega
  simp only [handleChunkedMedia, hseq, tag_div10000 f i T hi hT, tag_part f i T hi hT,
    tag_total f i T hi hT, if_neg hc1, if_pos hc3]
  simp [mapGet, mapSet, hsize]

theorem handleChunkedMedia_complete (e : MediaEvent) (f i T : Nat) (P : PendingFrame)
    (parts : List (List Nat))
    (hseq : e.sequence = f * 10000 + i + T * 100)
    (hi : i < 100) (hT2 : 2 ≤ T) (hT : T < 100)
    (hlen : T ≤ (mapSet P.chunks i e.data).length)
    (hcollect : collectParts (mapSet P.chunks i e.data) 0 T = some parts) :
    handleChunkedMedia [(f, P)] e = ([], some parts.flatten) := by
  have hc1 : ¬ (T ≤ 1 ∧ i = 0) := by omega
  have hc3 : T > 0 := by omega
  simp only [handleChunkedMedia, hseq, tag_div10000 f i T hi hT, tag_part f i T hi hT,
    tag_total f i T hi hT, if_neg hc1, if_pos hc3]
  simp [mapGet, mapSet, mapDelete, hlen, hcollect]

theorem handleChunkedMedia_noop (e : MediaEvent)
    (hpn : ¬ e.sequence % 10000 % 100 = 0)
    (htp : e.sequence % 10000 / 100 = 0) :
    handleChunkedMedia [] e = ([], none) := by
  have hc1 : ¬ (e.sequence % 10000 / 100 ≤ 1 ∧ e.sequence % 10000 % 100 = 0) :=
    fun hc => hpn hc.2
  simp only [handleChunkedMedia, if_neg hc1, htp]
  simp [mapGet, mapSet, mapDelete, collectParts, hpn]

theorem runChunks_multi (f T : Nat) (g : Nat → List Nat) (hT2 : 2 ≤ T) (hT : T < 100)
    (evs : List MediaEvent) :
    ∀ (rem done : List Nat) (P : PendingFrame),
      evs.map (fun e => (e.sequence, e.data)) =
        rem.map (fun j => (f * 10000 + j + T * 100, g j)) →
      (done ++ rem).Perm (List.range T) →
      P.chunks = done.map (fun j => (j, g j)) →
      rem ≠ [] →
      runChunks [(f, P)] evs = ([], [((List.range T).map g).flatten]) := by
  induction evs with
  | nil =>
    intro rem done P hpairs hperm hP hne
    cases rem with
    | nil => exact absurd rfl hne
    | cons j rem₂ => simp at hpairs
  | cons e evs₂ ih =>
    intro rem done P hpairs hperm hP hne
    cases rem with
    | nil => simp at hpairs
    | cons j rem₂ =>
      simp only [List.map_cons, List.cons.injEq] at hpairs
      obtain ⟨hhead, htail⟩ := hpairs
      have hseq : e.sequence = f * 10000 + j + T * 100 := congrArg Prod.fst hhead
      have hdata : e.data = g j := congrArg Prod.snd hhead
      have hjmem : j ∈ done ++ j :: rem₂ := by simp
      have hjT : j < T := List.mem_range.mp (hperm.mem_iff.mp hjmem)
      have hj100 : j < 100 := by omega
      have hnd : (done ++ j :: rem₂).Nodup := hperm.nodup_iff.mpr (List.nodup_range T)
      have hnotdone : j ∉ done := by
        rcases List.nodup_append.mp hnd with ⟨-, -, hdisj⟩
        exact fun hj => hdisj hj (List.mem_cons_self j rem₂)
      have hget : mapGet P.chunks j = none := by
        rw [hP, mapGet_assoc]
        exact if_neg hnotdone
      have hmset : mapSet P.chunks j e.data = (done ++ [j]).map fun k => (k, g k) := by
        rw [hP, hdata, mapSet_assoc_append g done j (g j) hnotdone, List.map_append]
        rfl
      cases rem₂ with
      | nil =>
        have hevs₂ : evs₂ = [] := by
          cases evs₂ with
          | nil => rfl
          | cons x xs => simp at htail
        subst hevs₂
        have hpermDone : (done ++ [j]).Perm (List.range T) := hperm
        have hdlen : done.length + 1 = T := by
          have hl := hpermDone.length_eq
          simpa using hl
        have hall : ∀ k, k < T → mapGet (mapSet P.chunks j e.data) (0 + k) =
            some (g (0 + k)) := by
          intro k hk
          simp only [Nat.zero_add]
          rw [hmset, mapGet_assoc]
          have hkmem : k ∈ done ++ [j] :=
            hpermDone.mem_iff.mpr (List.mem_range.mpr hk)
          exact if_pos hkmem
        have hcoll := collectParts_eq (mapSet P.chunks j e.data) g T 0 hall
        rw [← List.range_eq_range'] at hcoll
        have hlen2 : T ≤ (mapSet P.chunks j e.data).length := by
          rw [hmset]
          simp only [List.length_map, List.length_append, List.length_cons,
            List.length_nil]
          omega
        have hstep := handleChunkedMedia_complete e f j T P _ hseq hj100 hT2 hT hlen2 hcoll
        simp [runChunks, hstep]
      | cons j₂ rem₃ =>
        have hlentot : done.length + (rem₃.length + 2) = T := by
          have hl := hperm.length_eq
          simpa using hl
        have hlen3 : P.chunks.length + 1 < T := by
          rw [hP]
          simp only [List.length_map]
          omega
        have hstep := handleChunkedMedia_acc e f j T P hseq hj100 hT2 hT hget hlen3
        have hperm₂ : ((done ++ [j]) ++ j₂ :: rem₃).Perm (List.range T) := by
          have hrw : (done ++ [j]) ++ j₂ :: rem₃ = done ++ j :: j₂ :: rem₃ := by
            simp
          rw [hrw]
          exact hperm
        have hres := ih (j₂ :: rem₃) (done ++ [j])
          ⟨mapSet P.chunks j e.data, T, P.fromId, P.timestamp⟩
          htail hperm₂ hmset (by simp)
        simp [runChunks, hstep, hres]

theorem runChunks_multi_top (f T : Nat) (g : Nat → List Nat) (hT2 : 2 ≤ T)
    (hT : T < 100) (evs : List MediaEvent) (rem : List Nat)
    (hpairs : evs.map (fun e => (e.sequence, e.data)) =
      rem.map (fun j => (f * 10000 + j + T * 100, g j)))
    (hperm : rem.Perm (List.range T)) :
    runChunks [] evs = ([], [((List.range T).map g).flatten]) := by
  cases evs with
  | nil =>
    cases rem with
    | nil =>
      have hl := hperm.length_eq
      simp at hl
      omega
    | cons j rem₂ => simp at hpairs
  | cons e evs₂ =>
    cases rem with
    | nil => simp at hpairs
    | cons j rem₂ =>
      simp only [List.map_cons, List.cons.injEq] at hpairs
      obtain ⟨hhead, htail⟩ := hpairs
      have hseq : e.sequence = f * 10000 + j + T * 100 := congrArg Prod.fst hhead
      have hdata : e.data = g j := congrArg Prod.snd hhead
      have hjT : j < T :=
        List.mem_range.mp (hperm.mem_iff.mp (List.mem_cons_self j rem₂))
      have hj100 : j < 100 := by omega
      have hstep := handleChunkedMedia_create e f j T hseq hj100 hT2 hT
      have hrem₂ : rem₂ ≠ [] := by
        intro hr
        subst hr
        have hl := hperm.length_eq
        simp at hl
        omega
      have hperm₂ : ([j] ++ rem₂).Perm (List.range T) := by simpa using hperm
      have hres := runChunks_multi f T g hT2 hT evs₂ rem₂ [j]
        ⟨[(j, e.data)], T, e.fromId, if e.timestamp = 0 then e.arrival else e.timestamp⟩
        htail hperm₂ (by simp [hdata]) hrem₂
      simp [runChunks, hstep, hres]

/-- Core round-trip result: any events whose `(tag, bytes)` pairs are a
permutation of the sub-chunks produced by `broadcastChunk` for a payload of
at most 99 sub-chunks reassemble to exactly one dispatch of the original
payload, leaving no pending state. -/
theorem roundtrip_run (data : List Nat) (f : Nat) (evs : List MediaEvent)
    (hlen : data.length ≤ 99 * MAX_CHUNK_SIZE)
    (hperm : (evs.map fun e => (e.sequence, e.data)).Perm (broadcastChunk data f)) :
    runChunks [] evs = ([], [data]) := by
  have hM : MAX_CHUNK_SIZE = 56320 := rfl
  by_cases hsmall : data.length ≤ MAX_CHUNK_SIZE
  · rw [broadcastChunk, if_pos hsmall] at hperm
    have hevs := List.perm_singleton.mp hperm
    cases evs with
    | nil => simp at hevs
    | cons e rest =>
      simp only [List.map_cons, List.cons.injEq] at hevs
      obtain ⟨hhead, htail⟩ := hevs
      have hrest : rest = [] := by
        cases rest with
        | nil => rfl
        | cons x xs => simp at htail
      subst hrest
      have hseq : e.sequence = f * 10000 := congrArg Prod.fst hhead
      have hdata : e.data = data := congrArg Prod.snd hhead
      have hcond : e.sequence % 10000 / 100 ≤ 1 ∧ e.sequence % 10000 % 100 = 0 := by
        rw [hseq]
        omega
      have hstep := handleChunkedMedia_single e hcond []
      simp [runChunks, hstep, hdata]
  · push_neg at hsmall
    simp only [broadcastChunk, if_neg (Nat.not_le.mpr hsmall)] at hperm
    set T := (data.length + MAX_CHUNK_SIZE - 1) / MAX_CHUNK_SIZE with hTdef
    have hT2 : 2 ≤ T := by
      rw [hTdef, hM]
      rw [hM] at hsmall
      omega
    have hT99 : T < 100 := by
      rw [hM] at hsmall hlen
      rw [hTdef, hM]
      omega
    obtain ⟨rem, hremperm, hpairs⟩ := exists_preimage_perm
      (fun i => (f * 10000 + i + T * 100,
        (data.drop (i * MAX_CHUNK_SIZE)).take MAX_CHUNK_SIZE))
      (evs.map fun e => (e.sequence, e.data)) (List.range T) hperm
    have hrun := runChunks_multi_top f T
      (fun i => (data.drop (i * MAX_CHUNK_SIZE)).take MAX_CHUNK_SIZE)
      hT2 hT99 evs rem hpairs hremperm
    have hflat := chunks_flatten data.length data le_rfl
      (by rw [hM] at hsmall; omega)
    rw [← hTdef] at hflat
    rw [hflat] at hrun
    exact hrun

theorem runChunks_append (pcs : List (Nat × PendingFrame)) (l₁ l₂ : List MediaEvent) :
    runChunks pcs (l₁ ++ l₂) =
      ((runChunks (runChunks pcs l₁).1 l₂).1,
        (runChunks pcs l₁).2 ++ (runChunks (runChunks pcs l₁).1 l₂).2) := by
  induction l₁ generalizing pcs with
  | nil => simp [runChunks]
  | cons e rest ih => simp [runChunks, ih]

theorem runChunks_noop (evs : List MediaEvent)
    (h : ∀ e ∈ evs, ¬ e.sequence % 10000 % 100 = 0 ∧ e.sequence % 10000 / 100 = 0) :
    runChunks [] evs = ([], []) := by
  induction evs with
  | nil => rfl
  | cons e rest ih =>
    obtain ⟨hpn, htp⟩ := h e (List.mem_cons_self e rest)
    have hstep := handleChunkedMedia_noop e hpn htp
    have hres := ih fun x hx => h x (List.mem_cons_of_mem e hx)
    simp [runChunks, hstep, hres]

theorem runChunks_cons (pcs : List (Nat × PendingFrame)) (e : MediaEvent)
    (rest : List MediaEvent) :
    runChunks pcs (e :: rest) =
      ((runChunks (handleChunkedMedia pcs e).1 rest).1,
        (handleChunkedMedia pcs e).2.toList ++
          (runChunks (handleChunkedMedia pcs e).1 rest).2) := by
  simp [runChunks]

/-- Behaviour of the reassembler on the 100 parts generated for a payload one
byte past the 99-sub-chunk limit, fed in the generated order: only the first
part is dispatched (its tag `10000` decodes as a single-chunk frame 1), and
each later part is created and immediately dropped as an incomplete frame. -/
theorem overlong_run (d : List Nat) (hd : d.length = 5575681) :
    (runChunks [] ((broadcastChunk d 0).map fun p => ⟨"s", p.2, p.1, 0, 0⟩)).2 =
      [d.take MAX_CHUNK_SIZE] := by
  have hcond : ¬ d.length ≤ MAX_CHUNK_SIZE := by
    rw [hd]
    norm_num [MAX_CHUNK_SIZE]
  have hT : (d.length + MAX_CHUNK_SIZE - 1) / MAX_CHUNK_SIZE = 100 := by
    rw [hd]
    norm_num [MAX_CHUNK_SIZE]
  have hbc : broadcastChunk d 0 =
      (List.range 100).map fun i =>
        (0 * 10000 + i + 100 * 100,
         (d.drop (i * MAX_CHUNK_SIZE)).take MAX_CHUNK_SIZE) := by
    rw [broadcastChunk, if_neg hcond, hT]
  have h100 : List.range 100 = 0 :: (List.range 99).map Nat.succ :=
    List.range_succ_eq_map 99
  have hevlist : (broadcastChunk d 0).map
      (fun p => (⟨"s", p.2, p.1, 0, 0⟩ : MediaEvent)) =
      (⟨"s", d.take MAX_CHUNK_SIZE, 10000, 0, 0⟩ : MediaEvent) ::
      (List.range 99).map fun i =>
        (⟨"s", (d.drop ((i + 1) * MAX_CHUNK_SIZE)).take MAX_CHUNK_SIZE,
          i + 1 + 10000, 0, 0⟩ : MediaEvent) := by
    rw [hbc, List.map_map, h100, List.map_cons, List.map_map]
    simp only [List.cons.injEq]
    constructor
    · simp only [Function.comp, MediaEvent.mk.injEq, Nat.zero_mul, List.drop_zero,
        and_true, true_and]
    · refine List.map_congr_left fun i _ => ?_
      simp only [Function.comp, Nat.succ_eq_add_one, MediaEvent.mk.injEq,
        and_true, true_and]
      omega
  have hstep0 : handleChunkedMedia []
      (⟨"s", d.take MAX_CHUNK_SIZE, 10000, 0, 0⟩ : MediaEvent) =
      ([], some (d.take MAX_CHUNK_SIZE)) :=
    handleChunkedMedia_single _
      (by
        constructor
        · show (10000 : Nat) % 10000 / 100 ≤ 1
          norm_num
        · show (10000 : Nat) % 10000 % 100 = 0
          norm_num) []
  have hnoop : runChunks []
      ((List.range 99).map fun i =>
        (⟨"s", (d.drop ((i + 1) * MAX_CHUNK_SIZE)).take MAX_CHUNK_SIZE,
          i + 1 + 10000, 0, 0⟩ : MediaEvent)) = ([], []) := by
    refine runChunks_noop _ ?_
    intro e he
    obtain ⟨i, hi, rfl⟩ := List.mem_map.mp he
    have hi99 : i < 99 := List.mem_range.mp hi
    constructor
    · show ¬ (i + 1 + 10000) % 10000 % 100 = 0
      omega
    · show (i + 1 + 10000) % 10000 / 100 = 0
      omega
  rw [hevlist, runChunks_cons, hstep0]
  show ((runChunks [] ((List.range 99).map fun i =>
        (⟨"s", (d.drop ((i + 1) * MAX_CHUNK_SIZE)).take MAX_CHUNK_SIZE,
          i + 1 + 10000, 0, 0⟩ : MediaEvent))).1,
      (some (d.take MAX_CHUNK_SIZE)).toList ++
        (runChunks [] ((List.range 99).map fun i =>
          (⟨"s", (d.drop ((i + 1) * MAX_CHUNK_SIZE)).take MAX_CHUNK_SIZE,
            i + 1 + 10000, 0, 0⟩ : MediaEvent))).2).2 = [d.take MAX_CHUNK_SIZE]
  rw [hnoop]
  rfl

/-- C1 counterexample — The claim's bound `L ≤ 10_000_000` is too large:
a 5 575 681-byte payload needs 100 sub-chunks, whose tags overflow the
packing (`totalParts * 100 = 10000` bleeds into the frame field).  Feeding
the generated parts into the reassembler in the generated order dispatches
exactly one buffer, but it is the first 55 KiB sub-chunk, not the payload. -/
theorem C1_counterexample :
    (runChunks []
        ((broadcastChunk (List.replicate 5575681 0) 0).map
          fun p => ⟨"s", p.2, p.1, 0, 0⟩)).2 =
      [(List.replicate 5575681 (0 : Nat)).take MAX_CHUNK_SIZE] ∧
    (runChunks []
        ((broadcastChunk (List.replicate 5575681 0) 0).map
          fun p => ⟨"s", p.2, p.1, 0, 0⟩)).2 ≠ [List.replicate 5575681 (0 : Nat)] := by
  have hmain := overlong_run (List.replicate 5575681 0) (List.length_replicate _ _)
  refine ⟨hmain, ?_⟩
  rw [hmain]
  intro hcontra
  have h1 : (List.replicate 5575681 (0 : Nat)).take MAX_CHUNK_SIZE =
      List.replicate 5575681 (0 : Nat) := by
    injection hcontra
  have h2 := congrArg List.length h1
  rw [List.length_take, List.length_replicate] at h2
  norm_num [MAX_CHUNK_SIZE] at h2

/-- C1 (amended) — For every byte payload of length `L` with
`0 ≤ L ≤ 99 * MAX_CHUNK_SIZE = 5 575 680` (at most 99 sub-chunks, the
largest size the tag packing supports) and every frame number, fragmenting
the payload with `broadcastChunk` and feeding the generated parts (with
their tags) into `handleChunkedMedia` in any order yields exactly one
reassembled buffer, equal byte-for-byte to the original payload (and leaves
no pending state).  For larger payloads the round trip fails (see the
counterexample). -/
theorem C1_roundtrip_bounded (data : List Nat) (f : Nat) (evs : List MediaEvent)
    (hlen : data.length ≤ 99 * MAX_CHUNK_SIZE)
    (hperm : (evs.map fun e => (e.sequence, e.data)).Perm (broadcastChunk data f)) :
    runChunks [] evs = ([], [data]) :=
  roundtrip_run data f evs hlen hperm

theorem C1_roundtrip_bounded_witness :
    (List.length [(1 : Nat)] ≤ 99 * MAX_CHUNK_SIZE) ∧
    runChunks [] [⟨"s", [1], 0, 0, 0⟩] = ([], [[1]]) :=
  ⟨by decide,
   C1_roundtrip_bounded [1] 0 [⟨"s", [1], 0, 0, 0⟩] (by decide) (by decide)⟩

/-- C5 (amended) — Delivering the complete part set of a frame twice
(each delivery in any order, the second after the first reassembly removed
the pending frame) produces exactly one dispatch per complete delivery —
two in total, each equal to the payload — and is handled safely with no
error and no leftover pending state; the claimed "at most one dispatch" is
refuted by the counterexample. -/
theorem C5_two_complete_deliveries_two_dispatches (data : List Nat) (f : Nat)
    (evs₁ evs₂ : List MediaEvent)
    (hlen : data.length ≤ 99 * MAX_CHUNK_SIZE)
    (h₁ : (evs₁.map fun e => (e.sequence, e.data)).Perm (broadcastChunk data f))
    (h₂ : (evs₂.map fun e => (e.sequence, e.data)).Perm (broadcastChunk data f)) :
    runChunks [] (evs₁ ++ evs₂) = ([], [data, data]) := by
  rw [runChunks_append, roundtrip_run data f evs₁ hlen h₁]
  simp [roundtrip_run data f evs₂ hlen h₂]

theorem C5_two_complete_deliveries_two_dispatches_witness :
    runChunks [] ([⟨"s", [1], 0, 0, 0⟩] ++ [⟨"s", [1], 0, 0, 0⟩]) =
      ([], [[1], [1]]) :=
  C5_two_complete_deliveries_two_dispatches [1] 0 _ _ (by decide) (by decide)
    (by decide)

/-- C6 — ICE-candidate handling for a peer `P` (with the self/targeting
guards passed): (a) if a connection handle for `P` exists and its remote
description is set, the candidate is applied immediately (appended to the
applied sequence); (b)/(b') otherwise — no handle, or a handle without remote
description — it is appended to `P`'s pending-candidate queue; (c) when an
offer from `P` is handled, the new handle has its remote description set and
every queued candidate applied in original receive order with zero loss, and
the queue for `P` is discarded; (d) likewise on an answer from `P` with an
existing handle, the queued candidates are applied in order after the
already-applied ones and the queue is discarded. -/
theorem C6_ice_candidate_queue_flush (env : RTCEnv) (s : RTCState) (P : String)
    (c : Nat) (sdp : Option String)
    (hfrom : P ≠ env.myEndpointId) (hch : env.hasChannel = true) :
    (∀ pc, mapGet s.peerConnections P = some pc → pc.remoteDescription = true →
      handleWebRTCSignal env s ⟨.iceCandidate, P, none, none, some c⟩ =
        ({ s with peerConnections := (mapSet s.peerConnections P
                { pc with applied := pc.applied ++ [c] }) }, [])) ∧
    (mapGet s.peerConnections P = none →
      handleWebRTCSignal env s ⟨.iceCandidate, P, none, none, some c⟩ =
        ({ s with pendingIceCandidates := (mapSet s.pendingIceCandidates P
                (((mapGet s.pendingIceCandidates P).getD []) ++ [c])) }, [])) ∧
    (∀ pc, mapGet s.peerConnections P = some pc → pc.remoteDescription = false →
      handleWebRTCSignal env s ⟨.iceCandidate, P, none, none, some c⟩ =
        ({ s with pendingIceCandidates := (mapSet s.pendingIceCandidates P
                (((mapGet s.pendingIceCandidates P).getD []) ++ [c])) }, [])) ∧
    (∀ q, mapGet s.pendingIceCandidates P = some q →
      (handleWebRTCSignal env s ⟨.offer, P, none, sdp, none⟩).1 =
        { peerConnections := mapSet s.peerConnections P ⟨true, true, q⟩
          pendingIceCandidates := mapDelete s.pendingIceCandidates P }) ∧
    (∀ pc q, mapGet s.peerConnections P = some pc →
      mapGet s.pendingIceCandidates P = some q →
      (handleWebRTCSignal env s ⟨.answer, P, none, sdp, none⟩).1 =
        { peerConnections := (mapSet s.peerConnections P
            { pc with remoteDescription := true, applied := pc.applied ++ q })
          pendingIceCandidates := mapDelete s.pendingIceCandidates P }) := by
  have hch' : ¬ ¬ env.hasChannel := by simp [hch]
  refine ⟨?_, ?_, ?_, ?_, ?_⟩
  · intro pc hget hrd
    simp [handleWebRTCSignal, hfrom, hch', hget, hrd]
  · intro hget
    simp [handleWebRTCSignal, hfrom, hch', hget]
  · intro pc hget hrd
    simp [handleWebRTCSignal, hfrom, hch', hget, hrd]
  · intro q hq
    simp [handleWebRTCSignal, hfrom, hch', hq]
  · intro pc q hget hq
    simp [handleWebRTCSignal, hfrom, hch', hget, hq]

theorem C6_ice_candidate_queue_flush_witness :
    ("p" : String) ≠ "me" ∧
    (handleWebRTCSignal ⟨"me", true, none, "o", "a"⟩
        ⟨[], [("p", [7, 8])]⟩ ⟨.offer, "p", none, some "sdp", none⟩).1 =
      { peerConnections := mapSet [] "p" ⟨true, true, [7, 8]⟩
        pendingIceCandidates := mapDelete [("p", [7, 8])] "p" } := by
  refine ⟨by decide, ?_⟩
  exact (C6_ice_candidate_queue_flush ⟨"me", true, none, "o", "a"⟩
    ⟨[], [("p", [7, 8])]⟩ "p" 0 (some "sdp") (by decide) rfl).2.2.2.1 [7, 8] rfl

/-- C7 — A `webrtc-request-offer` (broadcast, guards passed) received
while the local media source is absent, or has zero tracks in the live
state, leaves the state unchanged and sends nothing — no peer connection is
created and no offer is sent; an offer is produced exactly when at least one
live track exists. -/
theorem C7_request_offer_needs_live_tracks (env : RTCEnv) (s : RTCState)
    (sg : WSignal) (hty : sg.type = .requestOffer)
    (hfrom : sg.fromId ≠ env.myEndpointId) (hto : sg.toId = none)
    (hch : env.hasChannel = true) :
    (env.mediaStream = none → handleWebRTCSignal env s sg = (s, [])) ∧
    (∀ tracks, env.mediaStream = some tracks →
      (tracks.filter fun t => t).length = 0 →
      handleWebRTCSignal env s sg = (s, [])) ∧
    (∀ tracks, env.mediaStream = some tracks →
      0 < (tracks.filter fun t => t).length →
      handleWebRTCSignal env s sg =
        ({ s with peerConnections := (mapSet s.peerConnections sg.fromId
                ⟨false, true, []⟩) },
         [⟨.offer, env.myEndpointId, some sg.fromId, some env.offerSdp, none⟩])) := by
  have hch' : ¬ ¬ env.hasChannel := by simp [hch]
  refine ⟨?_, ?_, ?_⟩
  · intro hms
    simp [handleWebRTCSignal, hfrom, hto, hch', hty, hms]
  · intro tracks hms hlive
    simp [handleWebRTCSignal, hfrom, hto, hch', hty, hms, hlive]
  · intro tracks hms hlive
    simp [handleWebRTCSignal, hfrom, hto, hch', hty, hms, Nat.pos_iff_ne_zero.mp hlive]

theorem C7_request_offer_needs_live_tracks_witness :
    (handleWebRTCSignal ⟨"me", true, some [false, false], "o", "a"⟩ ⟨[], []⟩
      ⟨.requestOffer, "p", none, none, none⟩ = (⟨[], []⟩, [])) ∧
    (handleWebRTCSignal ⟨"me", true, some [true], "o", "a"⟩ ⟨[], []⟩
      ⟨.requestOffer, "p", none, none, none⟩ =
      (⟨mapSet [] "p" ⟨false, true, []⟩, []⟩,
       [⟨.offer, "me", some "p", some "o", none⟩])) := by
  constructor
  · exact (C7_request_offer_needs_live_tracks ⟨"me", true, some [false, false], "o", "a"⟩
      ⟨[], []⟩ ⟨.requestOffer, "p", none, none, none⟩ rfl (by decide) rfl rfl).2.1
      [false, false] rfl (by decide)
  · exact (C7_request_offer_needs_live_tracks ⟨"me", true, some [true], "o", "a"⟩
      ⟨[], []⟩ ⟨.requestOffer, "p", none, none, none⟩ rfl (by decide) rfl rfl).2.2
      [true] rfl (by decide)

/-- C8 — Self-message exclusion: a signal whose `from` equals the local
endpoint id is ignored by `handleWebRTCSignal` (state unchanged, nothing
sent), and a video message whose `from` equals the local endpoint id is
ignored by both the broadcaster's and the viewer's `handleVideoMessage`
(no action emitted, viewer state unchanged). -/
theorem C8_self_messages_ignored :
    (∀ (env : RTCEnv) (s : RTCState) (sg : WSignal),
      sg.fromId = env.myEndpointId → handleWebRTCSignal env s sg = (s, [])) ∧
    (∀ (b : Broadcaster) (msg : VideoMessage),
      msg.fromId = b.myEndpointId → handleVideoMessageB b msg = []) ∧
    (∀ (v : Viewer) (msg : VideoMessage),
      msg.fromId = v.myEndpointId → handleVideoMessageV v msg = (v, [])) := by
  refine ⟨?_, ?_, ?_⟩
  · intro env s sg h
    simp [handleWebRTCSignal, h]
  · intro b msg h
    simp [handleVideoMessageB, h]
  · intro v msg h
    simp [handleVideoMessageV, h]

theorem C8_self_messages_ignored_witness :
    handleWebRTCSignal ⟨"me", true, none, "o", "a"⟩ ⟨[], []⟩
        ⟨.offer, "me", none, some "sdp", none⟩ = (⟨[], []⟩, []) ∧
    handleVideoMessageB ⟨[[1]], ⟨"f", 1, "video/mp4", 1, none⟩, "me"⟩
        { type := .videoRequestChunk, fromId := "me", chunkIndex := some 0 } = [] ∧
    handleVideoMessageV ⟨"me", none, [], [], [], [], false, false, -1⟩
        { type := .videoChunk, fromId := "me", chunkIndex := some 0, chunkData := some [1] } =
      (⟨"me", none, [], [], [], [], false, false, -1⟩, []) :=
  ⟨C8_self_messages_ignored.1 ⟨"me", true, none, "o", "a"⟩ ⟨[], []⟩
      ⟨.offer, "me", none, some "sdp", none⟩ rfl,
   C8_self_messages_ignored.2.1 ⟨[[1]], ⟨"f", 1, "video/mp4", 1, none⟩, "me"⟩
      { type := .videoRequestChunk, fromId := "me", chunkIndex := some 0 } rfl,
   C8_self_messages_ignored.2.2 ⟨"me", none, [], [], [], [], false, false, -1⟩
      { type := .videoChunk, fromId := "me", chunkIndex := some 0, chunkData := some [1] } rfl⟩

/-- C9 — `VideoFileBroadcaster.handleChunkRequest(peerId, index)` always
invokes the `onPeerRequest` observer callback first; if
`0 ≤ index < totalChunks` it re-broadcasts exactly the chunk stored at
`index` (one `channel.broadcastChunk` send tagged with `index`); an
out-of-range `index` is a no-op beyond the observer call — it completes
without error and sends nothing. -/
theorem C9_chunk_request_range (b : Broadcaster) (peerId : String) (index : Int) :
    ((handleChunkRequestB b peerId index).head? = some (.peerRequest peerId index)) ∧
    (0 ≤ index ∧ index < (b.chunks.length : Int) →
      handleChunkRequestB b peerId index =
        [.peerRequest peerId index,
         .sendChunk
           { type := .videoChunk
             fromId := b.myEndpointId
             chunkIndex := some index
             chunkData := some (b.chunks.getD index.toNat []) } index]) ∧
    (¬ (0 ≤ index ∧ index < (b.chunks.length : Int)) →
      handleChunkRequestB b peerId index = [.peerRequest peerId index]) := by
  refine ⟨?_, ?_, ?_⟩
  · simp [handleChunkRequestB]
  · intro hrange
    have hguard : ¬ (index < 0 ∨ (b.chunks.length : Int) ≤ index) := by omega
    simp [handleChunkRequestB, broadcastChunkB, hrange, hguard]
  · intro hrange
    simp [handleChunkRequestB, hrange]

theorem C9_chunk_request_range_witness :
    ((handleChunkRequestB ⟨[[5]], ⟨"f", 1, "video/mp4", 1, none⟩, "me"⟩ "p" 0).head? =
      some (.peerRequest "p" 0)) ∧
    handleChunkRequestB ⟨[[5]], ⟨"f", 1, "video/mp4", 1, none⟩, "me"⟩ "p" 0 =
      [.peerRequest "p" 0,
       .sendChunk { type := .videoChunk, fromId := "me", chunkIndex := some 0, chunkData := some [5] } 0] ∧
    handleChunkRequestB ⟨[[5]], ⟨"f", 1, "video/mp4", 1, none⟩, "me"⟩ "p" 3 =
      [.peerRequest "p" 3] := by
  refine ⟨(C9_chunk_request_range _ "p" 0).1, ?_, ?_⟩
  · have h := (C9_chunk_request_range
      ⟨[[5]], ⟨"f", 1, "video/mp4", 1, none⟩, "me"⟩ "p" 0).2.1 (by decide)
    simpa using h
  · exact (C9_chunk_request_range
      ⟨[[5]], ⟨"f", 1, "video/mp4", 1, none⟩, "me"⟩ "p" 3).2.2 (by decide)

/-- C10 — `VideoFileViewer.handleChunk` stores and counts any chunk index
not already received, without validating it against the metadata's
`totalChunks`: for a viewer whose metadata says `totalChunks = 2`, the two
out-of-range chunk messages with indices 5 and 7 drive `getProgress()` to
`received = 2 = total` and `percent = 100`, while the in-range index 0 was
never received. -/
theorem C10_out_of_range_chunks_inflate_progress :
    getProgress
      ((handleVideoMessageV
        ((handleVideoMessageV
          ⟨"me", some ⟨"video", 0, "video/mp4", 2, none⟩, [], [], [], [],
            false, false, -1⟩
          { type := .videoChunk, fromId := "peer", chunkIndex := some 5, chunkData := some [1] }).1)
        { type := .videoChunk, fromId := "peer", chunkIndex := some 7, chunkData := some [2] }).1) = (2, 2, 100) ∧
    setHas
      ((handleVideoMessageV
        ((handleVideoMessageV
          ⟨"me", some ⟨"video", 0, "video/mp4", 2, none⟩, [], [], [], [],
            false, false, -1⟩
          { type := .videoChunk, fromId := "peer", chunkIndex := some 5, chunkData := some [1] }).1)
        { type := .videoChunk, fromId := "peer", chunkIndex := some 7, chunkData := some [2] }).1).receivedChunks 0 = false := by
  constructor
  · show ((2 : Nat), (2 : Nat), if (2 : Nat) > 0 then (((2 : Nat) : ℚ) / ((2 : Nat) : ℚ)) * 100 else 0) = (2, 2, 100)
    norm_num
  · decide
